import Mathlib

/-!
Verification of the tag-aggregation and classification core of the
Whisper-AT audio classification API (`src/app.py`), as a shallow
embedding in Lean 4.

The embedding follows the source closely:
* the three vocabulary tables are the Python sets, modelled as lists of
  string labels with decidable membership;
* `classify_audio` is the classifier of `app.py` lines 72-91;
* `tagFreqUpdate` models one `tag_freq[tag] += 1` step on a Python
  `defaultdict(int)` (insertion-ordered association list: increment the
  existing entry, or append a fresh entry with count 1);
* `tagFreqOfSegments` and `aggregate` model the aggregation loop and the
  `top_tags` comprehension of `process_audio_file` lines 110-118;
* `process_audio_file` models the pure part of the orchestrator
  (lines 93-127), taking the external model's output as a value;
* `process_audio_file_run` models its error behaviour: the function body
  contains no try/except, so a failure of the external call propagates
  unchanged;
* `classify_audio_from_url` models the control flow of the
  `/classify_url` endpoint (lines 178-225).
-/

namespace WhisperAT

/-- Known vocal tags (`VOCAL_TAGS` in `app.py`). -/
def VOCAL_TAGS : List String :=
  ["Singing", "Speech", "Female singing", "Male singing",
   "Child singing", "Vocal music", "Voice",
   "Male speech, man speaking", "Female speech, woman speaking",
   "Child speech, kid speaking", "Conversation", "Narration, monologue",
   "Narration", "Rapping", "Whispering"]

/-- Definitive speech tags that guarantee vocal classification
(`DEFINITIVE_SPEECH_TAGS` in `app.py`). -/
def DEFINITIVE_SPEECH_TAGS : List String :=
  ["Male speech, man speaking", "Female speech, woman speaking",
   "Child speech, kid speaking", "Conversation", "Narration, monologue"]

/-- Strict instrumental tags (`INSTRUMENTAL_TAGS` in `app.py`). -/
def INSTRUMENTAL_TAGS : List String :=
  ["Piano", "Electric piano", "Keyboard (musical)", "Synthesizer", "Organ",
   "Electronic organ", "Harpsichord", "Guitar", "Bass guitar", "Drums", "Violin",
   "Trumpet", "Flute", "Saxophone", "Plucked string instrument", "Electric guitar",
   "Acoustic guitar", "Steel guitar, slide guitar", "Banjo", "Sitar", "Mandolin",
   "Ukulele", "Hammond organ", "Percussion", "Drum kit", "Drum machine", "Drum",
   "Snare drum", "Bass drum", "Timpani", "Tabla", "Cymbal", "Hi-hat", "Tambourine",
   "Marimba, xylophone", "Vibraphone", "Brass instrument", "French horn", "Trombone",
   "Bowed string instrument", "String section", "Violin, fiddle", "Cello", "Double bass",
   "Wind instrument, woodwind instrument", "Clarinet", "Harp", "Harmonica", "Accordion"]

/-- Classifier of `app.py` (`classify_audio`, lines 72-91): definitive
speech tags win outright; otherwise combine vocal and instrumental
evidence. -/
def classify_audio (top_tags : List String) : String :=
  let has_definitive_speech := top_tags.any (fun tag => DEFINITIVE_SPEECH_TAGS.contains tag)
  if has_definitive_speech then
    "Vocal Audio"
  else
    let has_vocal := top_tags.any (fun tag => VOCAL_TAGS.contains tag)
    let has_instrumental := top_tags.any (fun tag => INSTRUMENTAL_TAGS.contains tag)
    if has_vocal && !has_instrumental then "Vocal Audio"
    else if has_instrumental && !has_vocal then "Instrumental Audio"
    else if has_vocal && has_instrumental then "Music"
    else "Unknown"

/-- One `tag_freq[tag] += 1` step on the insertion-ordered dictionary
`tag_freq` (a `defaultdict(int)`): increment the entry for `t` if there
is one, otherwise append `(t, 1)` at the end. -/
def tagFreqUpdate : List (String × Nat) → String → List (String × Nat)
  | [], t => [(t, 1)]
  | (k, v) :: rest, t =>
      if k = t then (k, v + 1) :: rest else (k, v) :: tagFreqUpdate rest t

/-- Tag-frequency dictionary built by the aggregation loop of
`process_audio_file` (lines 110-115): every tag occurrence in every
segment bumps that tag's count. -/
def tagFreqOfSegments (segments : List (List String)) : List (String × Nat) :=
  segments.foldl (fun m seg => seg.foldl tagFreqUpdate m) []

/-- The aggregator: `top_tags = [tag for tag, freq in tag_freq.items() if freq > 1]`
(line 118), i.e. the labels whose aggregated count is strictly greater
than 1, in dictionary insertion order. -/
def aggregate (segments : List (List String)) : List String :=
  ((tagFreqOfSegments segments).filter (fun p => 1 < p.2)).map Prod.fst

/-- Output of the external transcription/tagging call as consumed by
`process_audio_file`: the transcript text (`result["text"]`) and, per
segment, the already-filtered `audio tags` list of (label, score)
pairs returned by `whisper.parse_at_label`. Scores are opaque to the
aggregation logic (`for tag, _ in segment['audio tags']`). -/
structure ModelOutput where
  text : String
  taggedSegments : List (List (String × Int))
deriving DecidableEq

/-- Response value assembled by `process_audio_file`
(`AudioClassificationResponse` in `app.py`). -/
structure AudioClassificationResponse where
  transcription : String
  top_tags : List String
  classification : String
deriving DecidableEq

/-- Per-segment tag labels seen by the aggregation loop: the first
component of each (tag, score) pair of each segment. -/
def segmentLabels (out : ModelOutput) : List (List String) :=
  out.taggedSegments.map (fun seg => seg.map Prod.fst)

/-- Pure part of the orchestrator `process_audio_file` (lines 93-127),
given the external model's output: aggregate the per-segment tags,
classify the salient set, and assemble the response. -/
def process_audio_file (out : ModelOutput) : AudioClassificationResponse :=
  let top_tags := aggregate (segmentLabels out)
  { transcription := out.text
    top_tags := top_tags
    classification := classify_audio top_tags }

/-- Exceptions visible at the endpoint boundary: an `HTTPException`
carrying a status code and a detail string, or any other exception
carrying its message. -/
inductive Exc
  | http (status : Nat) (detail : String)
  | other (msg : String)
deriving DecidableEq

/-- Message text `str(e)` extracted from an exception when it is
interpolated into a new detail string; for an `HTTPException` the
message carries its detail. -/
def Exc.message : Exc → String
  | .http _ d => d
  | .other m => m

/-- Error behaviour of the orchestrator: `process_audio_file` wraps no
try/except, so an error raised by the external transcription/tagging
call propagates unchanged, and on a successful call the remaining body
is the total pure function above. -/
def process_audio_file_run (call : Except Exc ModelOutput) :
    Except Exc AudioClassificationResponse :=
  match call with
  | .error e => .error e
  | .ok out => .ok (process_audio_file out)

/-- Control flow of the `/classify_url` endpoint (lines 178-225):
reject an invalid model size with a 400 before the try block; inside
the try block, a non-200 download status raises a 400
`HTTPException`; any exception escaping the try block — including that
`HTTPException` — is caught by the generic handler and re-raised as a
500 whose detail interpolates the original message. `proc` stands for
the outcome of `process_audio_file` on the downloaded file. -/
def classify_audio_from_url (model_size : String) (download_status : Nat)
    (proc : Except Exc AudioClassificationResponse) :
    Except Exc AudioClassificationResponse :=
  if !(["tiny", "base", "small"].contains model_size) then
    Except.error (Exc.http 400 "Invalid model size.")
  else
    let body : Except Exc AudioClassificationResponse :=
      if download_status ≠ 200 then
        Except.error (Exc.http 400 "Failed to download audio.")
      else proc
    match body with
    | Except.ok r => Except.ok r
    | Except.error e =>
        Except.error (Exc.http 500 ("Error processing audio: " ++ e.message))

/-- Number of segments in which label `t` appears at least once. -/
def segmentsWith (t : String) (segments : List (List String)) : Nat :=
  (segments.filter (fun seg => seg.contains t)).length

/-- Count recorded for `t` in the frequency dictionary `m`: the value of
the first entry keyed by `t`, or `0` when there is none (a fresh
`defaultdict(int)` key reads as `0`). -/
def lookupCount (m : List (String × Nat)) (t : String) : Nat :=
  match m.find? (fun p => p.1 == t) with
  | some p => p.2
  | none => 0

theorem lookupCount_nil (t : String) : lookupCount [] t = 0 := rfl

theorem lookupCount_cons (k : String) (v : Nat) (m : List (String × Nat)) (t : String) :
    lookupCount ((k, v) :: m) t = if k = t then v else lookupCount m t := by
  by_cases h : k = t
  · simp [lookupCount, List.find?_cons, h]
  · simp [lookupCount, List.find?_cons, h]

theorem lookupCount_tagFreqUpdate (m : List (String × Nat)) (t s : String) :
    lookupCount (tagFreqUpdate m t) s =
      lookupCount m s + (if s = t then 1 else 0) := by
  induction m with
  | nil =>
      rw [tagFreqUpdate, lookupCount_cons, lookupCount_nil]
      by_cases h : s = t
      · subst h
        rw [if_pos rfl]
      · rw [if_neg (fun e => h e.symm), if_neg h]
  | cons p rest ih =>
      obtain ⟨k, v⟩ := p
      by_cases hk : k = t
      · subst hk
        rw [tagFreqUpdate, if_pos rfl, lookupCount_cons, lookupCount_cons]
        by_cases hs : k = s
        · subst hs
          simp
        · simp [hs, Ne.symm hs]
      · rw [tagFreqUpdate, if_neg hk, lookupCount_cons, lookupCount_cons]
        by_cases hs : k = s
        · subst hs
          simp [hk]
        · simp [hs, ih]

theorem mem_keys_tagFreqUpdate (m : List (String × Nat)) (t s : String) :
    s ∈ (tagFreqUpdate m t).map Prod.fst ↔ s ∈ m.map Prod.fst ∨ s = t := by
  induction m with
  | nil =>
      rw [tagFreqUpdate]
      simp
  | cons p rest ih =>
      obtain ⟨k, v⟩ := p
      by_cases hk : k = t
      · subst hk
        rw [tagFreqUpdate, if_pos rfl]
        simp only [List.map_cons, List.mem_cons]
        tauto
      · rw [tagFreqUpdate, if_neg hk]
        simp only [List.map_cons, List.mem_cons, ih]
        tauto

theorem nodup_keys_tagFreqUpdate (m : List (String × Nat)) (t : String)
    (h : (m.map Prod.fst).Nodup) : ((tagFreqUpdate m t).map Prod.fst).Nodup := by
  induction m with
  | nil =>
      rw [tagFreqUpdate]
      simp
  | cons p rest ih =>
      obtain ⟨k, v⟩ := p
      simp only [List.map_cons, List.nodup_cons] at h
      by_cases hk : k = t
      · subst hk
        rw [tagFreqUpdate, if_pos rfl]
        simp only [List.map_cons, List.nodup_cons]
        exact h
      · rw [tagFreqUpdate, if_neg hk]
        simp only [List.map_cons, List.nodup_cons]
        refine ⟨?_, ih h.2⟩
        intro hmem
        rcases (mem_keys_tagFreqUpdate rest t k).mp hmem with hin | hkt
        · exact h.1 hin
        · exact hk hkt

theorem lookupCount_foldl_update (seg : List String) :
    ∀ (m : List (String × Nat)) (s : String),
      lookupCount (seg.foldl tagFreqUpdate m) s = lookupCount m s + seg.count s := by
  induction seg with
  | nil => intro m s; simp
  | cons a seg ih =>
      intro m s
      rw [List.foldl_cons, ih, lookupCount_tagFreqUpdate, List.count_cons]
      by_cases h : s = a
      · subst h
        rw [if_pos rfl, if_pos (beq_self_eq_true s)]
        omega
      · have h2 : (a == s) = false := beq_eq_false_iff_ne.mpr (Ne.symm h)
        rw [if_neg h, h2, if_neg Bool.false_ne_true]
        omega

theorem nodup_keys_foldl_update (seg : List String) :
    ∀ m : List (String × Nat), (m.map Prod.fst).Nodup →
      ((seg.foldl tagFreqUpdate m).map Prod.fst).Nodup := by
  induction seg with
  | nil => intro m h; simpa using h
  | cons a seg ih =>
      intro m h
      exact ih _ (nodup_keys_tagFreqUpdate m a h)

theorem lookupCount_foldl_segments (segments : List (List String)) :
    ∀ (m : List (String × Nat)) (s : String),
      lookupCount (segments.foldl (fun m seg => seg.foldl tagFreqUpdate m) m) s =
        lookupCount m s + segments.flatten.count s := by
  induction segments with
  | nil => intro m s; simp
  | cons seg rest ih =>
      intro m s
      rw [List.foldl_cons, ih, lookupCount_foldl_update, List.flatten_cons,
        List.count_append]
      omega

theorem lookupCount_tagFreqOfSegments (segments : List (List String)) (s : String) :
    lookupCount (tagFreqOfSegments segments) s = segments.flatten.count s := by
  have h := lookupCount_foldl_segments segments [] s
  rw [lookupCount_nil] at h
  simpa [tagFreqOfSegments] using h

theorem nodup_keys_tagFreqOfSegments (segments : List (List String)) :
    ((tagFreqOfSegments segments).map Prod.fst).Nodup := by
  have h : ∀ (l : List (List String)) (m : List (String × Nat)),
      (m.map Prod.fst).Nodup →
      ((l.foldl (fun m seg => seg.foldl tagFreqUpdate m) m).map Prod.fst).Nodup := by
    intro l
    induction l with
    | nil => intro m hm; simpa using hm
    | cons seg rest ih =>
        intro m hm
        exact ih _ (nodup_keys_foldl_update seg m hm)
  exact h segments [] (by simp)

theorem lookupCount_of_mem (m : List (String × Nat))
    (h : (m.map Prod.fst).Nodup) (p : String × Nat) (hp : p ∈ m) :
    lookupCount m p.1 = p.2 := by
  induction m with
  | nil => cases hp
  | cons q rest ih =>
      obtain ⟨k, v⟩ := q
      simp only [List.map_cons, List.nodup_cons] at h
      rcases List.mem_cons.mp hp with rfl | hp'
      · simp [lookupCount_cons]
      · have hne : k ≠ p.1 := by
          intro e
          exact h.1 (e ▸ List.mem_map_of_mem Prod.fst hp')
        rw [lookupCount_cons, if_neg hne]
        exact ih h.2 hp'

theorem mem_aggregate_iff (segments : List (List String)) (t : String) :
    t ∈ aggregate segments ↔ 1 < segments.flatten.count t := by
  unfold aggregate
  constructor
  · intro ht
    rcases List.mem_map.mp ht with ⟨p, hp, rfl⟩
    rcases List.mem_filter.mp hp with ⟨hpm, hfreq⟩
    have h2 : 1 < p.2 := by simpa using hfreq
    have hv := lookupCount_of_mem _ (nodup_keys_tagFreqOfSegments segments) p hpm
    rw [lookupCount_tagFreqOfSegments] at hv
    omega
  · intro hcount
    have hl := lookupCount_tagFreqOfSegments segments t
    cases hfind : (tagFreqOfSegments segments).find? (fun p => p.1 == t) with
    | none =>
        rw [lookupCount, hfind] at hl
        simp only [] at hl
        omega
    | some p =>
        have hmem := List.mem_of_find?_eq_some hfind
        have hpt : p.1 = t := by simpa using List.find?_some hfind
        have hval : p.2 = segments.flatten.count t := by
          rw [← hl, lookupCount, hfind]
        refine List.mem_map.mpr ⟨p, List.mem_filter.mpr ⟨hmem, ?_⟩, hpt⟩
        simp only [decide_eq_true_eq]
        omega

theorem count_flatten_of_nodup_segments (t : String) (segments : List (List String))
    (h : ∀ seg ∈ segments, seg.Nodup) :
    segments.flatten.count t = segmentsWith t segments := by
  induction segments with
  | nil => simp [segmentsWith]
  | cons seg rest ih =>
      have hseg : seg.Nodup := h seg (List.mem_cons_self _ _)
      have hrest : ∀ s ∈ rest, s.Nodup := fun s hs => h s (List.mem_cons_of_mem _ hs)
      rw [List.flatten_cons, List.count_append, ih hrest]
      by_cases hm : t ∈ seg
      · have hc : seg.contains t = true :=
          List.contains_iff_exists_mem_beq.mpr ⟨t, hm, by simp⟩
        rw [List.count_eq_one_of_mem hseg hm]
        simp only [segmentsWith, List.filter_cons, hc, if_true, List.length_cons]
        omega
      · have hc : seg.contains t = false := by
          cases hcc : seg.contains t
          · rfl
          · exact absurd (by simpa using List.contains_iff_exists_mem_beq.mp hcc) hm
        rw [List.count_eq_zero_of_not_mem hm]
        simp only [segmentsWith, List.filter_cons, hc, Bool.false_eq_true, if_false]
        omega

theorem any_contains_iff (tags L : List String) :
    tags.any (fun t => L.contains t) = true ↔ ∃ t ∈ tags, t ∈ L := by
  simp [List.any_eq_true, List.contains_iff_exists_mem_beq]

/-- C1 (counterexample): the aggregation loop increments the count once
per raw occurrence of a tag in a segment's tag list, not once per
(segment, tag) pair. A segment whose tag list repeats "Piano" makes
"Piano" salient even though it appears in exactly one segment, refuting
"a label appearing in exactly one segment is never salient". -/
theorem aggregate_counts_raw_occurrences :
    "Piano" ∈ aggregate [["Piano", "Piano"]] ∧
    segmentsWith "Piano" [["Piano", "Piano"]] = 1 := by
  decide

/-- C1 (amended): a label is salient iff its total number of raw
occurrences across all segments' tag lists is strictly greater than 1;
when no segment's tag list contains a duplicate label this coincides
with the claim's reading: salient iff the label appears in strictly
more than one segment. -/
theorem aggregate_salient_iff (segments : List (List String)) (t : String)
    (h : ∀ seg ∈ segments, seg.Nodup) :
    (t ∈ aggregate segments ↔ 1 < segments.flatten.count t) ∧
    (t ∈ aggregate segments ↔ 1 < segmentsWith t segments) := by
  refine ⟨mem_aggregate_iff segments t, ?_⟩
  rw [mem_aggregate_iff segments t, count_flatten_of_nodup_segments t segments h]

/-- C1 (witness): on duplicate-free per-segment tag lists, a label
present in two distinct segments is salient. -/
theorem aggregate_salient_iff_witness :
    "Speech" ∈ aggregate [["Speech"], ["Speech", "Piano"]] :=
  ((aggregate_salient_iff [["Speech"], ["Speech", "Piano"]] "Speech"
    (by decide)).2).mpr (by decide)

/-- C2: `classify_audio` evaluates the exact precedence order: a
definitive-speech tag forces "Vocal Audio" regardless of any other
overlap; otherwise vocal-only gives "Vocal Audio", instrumental-only
gives "Instrumental Audio", both give "Music", neither gives
"Unknown". -/
theorem classify_audio_precedence (tags : List String) :
    ((∃ t ∈ tags, t ∈ DEFINITIVE_SPEECH_TAGS) →
        classify_audio tags = "Vocal Audio") ∧
    ((¬ ∃ t ∈ tags, t ∈ DEFINITIVE_SPEECH_TAGS) →
      (((∃ t ∈ tags, t ∈ VOCAL_TAGS) ∧ ¬ (∃ t ∈ tags, t ∈ INSTRUMENTAL_TAGS)) →
          classify_audio tags = "Vocal Audio") ∧
      (((∃ t ∈ tags, t ∈ INSTRUMENTAL_TAGS) ∧ ¬ (∃ t ∈ tags, t ∈ VOCAL_TAGS)) →
          classify_audio tags = "Instrumental Audio") ∧
      (((∃ t ∈ tags, t ∈ VOCAL_TAGS) ∧ (∃ t ∈ tags, t ∈ INSTRUMENTAL_TAGS)) →
          classify_audio tags = "Music") ∧
      ((¬ (∃ t ∈ tags, t ∈ VOCAL_TAGS)) ∧ (¬ (∃ t ∈ tags, t ∈ INSTRUMENTAL_TAGS)) →
          classify_audio tags = "Unknown")) := by
  rw [← any_contains_iff tags DEFINITIVE_SPEECH_TAGS,
    ← any_contains_iff tags VOCAL_TAGS,
    ← any_contains_iff tags INSTRUMENTAL_TAGS]
  cases hd : tags.any (fun tag => DEFINITIVE_SPEECH_TAGS.contains tag) <;>
  cases hv : tags.any (fun tag => VOCAL_TAGS.contains tag) <;>
  cases hi : tags.any (fun tag => INSTRUMENTAL_TAGS.contains tag) <;>
    (simp only [classify_audio, hd, hv, hi]; simp)

/-- C2 (witness): a definitive speech tag wins even against an
instrumental tag. -/
theorem classify_audio_precedence_witness :
    classify_audio ["Conversation", "Piano"] = "Vocal Audio" :=
  (classify_audio_precedence ["Conversation", "Piano"]).1 (by decide)

/-- C3: the orchestrator's output decomposes as aggregator followed by
classifier: `top_tags` is the salient set the aggregator computes from
the per-segment tag lists, `classification` is `classify_audio` of that
same set, and `transcription` is the model result's text. -/
theorem process_audio_file_decomposition (out : ModelOutput) :
    (process_audio_file out).top_tags = aggregate (segmentLabels out) ∧
    (process_audio_file out).classification =
      classify_audio ((process_audio_file out).top_tags) ∧
    (process_audio_file out).transcription = out.text :=
  ⟨rfl, rfl, rfl⟩

/-- C4: `classify_audio` is total on arbitrary tag lists and its result
is always exactly one of the four enumerated labels. -/
theorem classify_audio_total (tags : List String) :
    classify_audio tags = "Vocal Audio" ∨
    classify_audio tags = "Instrumental Audio" ∨
    classify_audio tags = "Music" ∨
    classify_audio tags = "Unknown" := by
  cases hd : tags.any (fun tag => DEFINITIVE_SPEECH_TAGS.contains tag) <;>
  cases hv : tags.any (fun tag => VOCAL_TAGS.contains tag) <;>
  cases hi : tags.any (fun tag => INSTRUMENTAL_TAGS.contains tag) <;>
    (simp only [classify_audio, hd, hv, hi]; simp)

/-- C5: empty input is not an error: aggregating zero segments yields
the empty salient set, classifying the empty tag set yields "Unknown",
and the pipeline's result for a model output with zero segments has
empty `top_tags` and classification "Unknown". -/
theorem empty_input_yields_unknown (out : ModelOutput)
    (h : out.taggedSegments = []) :
    aggregate [] = [] ∧
    classify_audio [] = "Unknown" ∧
    (process_audio_file out).top_tags = [] ∧
    (process_audio_file out).classification = "Unknown" := by
  refine ⟨rfl, rfl, ?_, ?_⟩ <;>
    simp [process_audio_file, segmentLabels, h, aggregate, tagFreqOfSegments,
      classify_audio]

/-- C5 (witness): the pipeline on a concrete zero-segment model output. -/
theorem empty_input_yields_unknown_witness :
    aggregate [] = [] ∧
    classify_audio [] = "Unknown" ∧
    (process_audio_file ⟨"hello", []⟩).top_tags = [] ∧
    (process_audio_file ⟨"hello", []⟩).classification = "Unknown" :=
  empty_input_yields_unknown ⟨"hello", []⟩ rfl

/-- C6: the aggregator is order-independent: permuting the input
segment sequence yields the same salient set of labels. -/
theorem aggregate_perm_invariant (segs1 segs2 : List (List String))
    (h : segs1.Perm segs2) :
    (aggregate segs1).toFinset = (aggregate segs2).toFinset := by
  ext t
  rw [List.mem_toFinset, List.mem_toFinset, mem_aggregate_iff, mem_aggregate_iff,
    h.flatten.count_eq]

/-- C6 (witness): swapping the first two segments of a concrete input
leaves the salient set unchanged. -/
theorem aggregate_perm_invariant_witness :
    (aggregate [["Piano"], ["Guitar"], ["Piano"]]).toFinset =
      (aggregate [["Guitar"], ["Piano"], ["Piano"]]).toFinset :=
  aggregate_perm_invariant _ _ (List.Perm.swap ["Guitar"] ["Piano"] [["Piano"]])

/-- C7: the `top_tags` list produced by the pipeline contains no
duplicate labels. -/
theorem top_tags_nodup (out : ModelOutput) :
    (process_audio_file out).top_tags.Nodup := by
  have hkeys := nodup_keys_tagFreqOfSegments (segmentLabels out)
  have hsub : List.Sublist
      (((tagFreqOfSegments (segmentLabels out)).filter
          (fun p => 1 < p.2)).map Prod.fst)
      ((tagFreqOfSegments (segmentLabels out)).map Prod.fst) :=
    (List.filter_sublist _).map Prod.fst
  exact hkeys.sublist hsub

/-- C8: the configured vocabulary tables are well-formed: the
definitive-speech tags are a subset of the vocal tags, and the vocal
and instrumental tags are disjoint. All three tables are plain
constants of the embedding, never mutated. -/
theorem vocabulary_well_formed :
    (∀ t ∈ DEFINITIVE_SPEECH_TAGS, t ∈ VOCAL_TAGS) ∧
    (∀ t ∈ VOCAL_TAGS, t ∉ INSTRUMENTAL_TAGS) := by
  decide

/-- C9: the orchestrator fails only by propagating the external call's
error unchanged, and never fails itself when the external call
succeeds. -/
theorem orchestrator_propagates_errors_unchanged :
    (∀ e : Exc, process_audio_file_run (Except.error e) = Except.error e) ∧
    (∀ out : ModelOutput,
      process_audio_file_run (Except.ok out) = Except.ok (process_audio_file out)) :=
  ⟨fun _ => rfl, fun _ => rfl⟩

/-- C10: in the `/classify_url` endpoint, a download that completes
with a non-200 status always surfaces to the caller as a 500 whose
detail wraps the original "Failed to download audio." message — never
as the 400 raised inside the try block. -/
theorem classify_url_download_failure_yields_500 (model_size : String)
    (download_status : Nat) (proc : Except Exc AudioClassificationResponse)
    (hms : model_size = "tiny" ∨ model_size = "base" ∨ model_size = "small")
    (hstatus : download_status ≠ 200) :
    classify_audio_from_url model_size download_status proc =
      Except.error (Exc.http 500 "Error processing audio: Failed to download audio.") := by
  rcases hms with rfl | rfl | rfl <;>
    simp [classify_audio_from_url, hstatus, Exc.message]

/-- C10 (witness): a concrete failed download with a valid model size. -/
theorem classify_url_download_failure_yields_500_witness :
    classify_audio_from_url "tiny" 404 (Except.ok ⟨"", [], "Unknown"⟩) =
      Except.error (Exc.http 500 "Error processing audio: Failed to download audio.") :=
  classify_url_download_failure_yields_500 "tiny" 404 (Except.ok ⟨"", [], "Unknown"⟩)
    (Or.inl rfl) (by decide)

end WhisperAT
